import Mathlib

/-!
Verification development for the data-analyst pipeline backend
(`backend/agent/...`).  Python strings are embedded as `List Char`
(a Python `str` is a sequence of characters); the helpers below mirror
the exact Python primitives the source uses (`str.split`, slicing,
`str.lower`, `str.strip`, substring test).
-/

/-- Python `s1 + s2` prefix test used by the split helpers:
`startsWithSeq p l` is true iff `p` is a prefix of `l`. -/
def startsWithSeq : List Char → List Char → Bool
  | [], _ => true
  | _ :: _, [] => false
  | a :: as, b :: bs => a == b && startsWithSeq as bs

/-- First occurrence of `sep` in `l`: returns the part before it and the
part after it (Python's leftmost, non-overlapping match). -/
def splitFirst (sep : List Char) : List Char → Option (List Char × List Char)
  | [] => if startsWithSeq sep [] then some ([], []) else none
  | c :: rest =>
    if startsWithSeq sep (c :: rest) then some ([], (c :: rest).drop sep.length)
    else (splitFirst sep rest).map (fun p => (c :: p.1, p.2))

/-- Fuel-bounded worker for `pySplit`. -/
def pySplitAux (sep : List Char) : Nat → List Char → List (List Char)
  | 0, l => [l]
  | fuel + 1, l =>
    match splitFirst sep l with
    | none => [l]
    | some (a, b) => a :: pySplitAux sep fuel b

/-- Python `l.split(sep)` for a non-empty separator: repeated leftmost
non-overlapping splits. -/
def pySplit (sep l : List Char) : List (List Char) :=
  pySplitAux sep (l.length + 1) l

/-- Python `sep in l` substring test. -/
def containsSeq (sep l : List Char) : Bool :=
  (splitFirst sep l).isSome

/-- Characters Python's `str.strip()` removes (ASCII whitespace). -/
def pyIsSpace (c : Char) : Bool :=
  c == ' ' || c == '\t' || c == '\n' || c == '\r' || c == '\x0b' || c == '\x0c'

/-- Python `s.strip()`. -/
def pyStrip (l : List Char) : List Char :=
  ((l.dropWhile pyIsSpace).reverse.dropWhile pyIsSpace).reverse

/-- Python `s.lower()` (ASCII range, which covers the literals compared
against in the source: "ignore", "pass"). -/
def pyLower (l : List Char) : List Char :=
  l.map Char.toLower

/-- Python `s[:n]`. -/
def pyTake (l : List Char) (n : Nat) : List Char := l.take n

/-- Python `s[-n:]`.  Mirrors the Python quirk that `s[-0:]` is the whole
string, not the empty suffix. -/
def pyTailSlice (l : List Char) (n : Nat) : List Char :=
  if n = 0 then l else l.drop (l.length - n)

/-- `utils.truncate_string_middle(s, max_length)`: returns `s` when it fits,
otherwise keeps the first and last `max_length // 2` characters around an
annotation reporting `len(s) - max_length` omitted characters. -/
def truncate_string_middle (s : List Char) (maxLength : Nat) : List Char :=
  if s.length ≤ maxLength then s
  else
    let half := maxLength / 2
    pyTake s half
      ++ " ... [TRUNCATED, ".data
      ++ (Nat.repr (s.length - maxLength)).data
      ++ " chars omitted] ... ".data
      ++ pyTailSlice s half

/-- `state.Step`: a stage descriptor (`order`, `name`, `description`,
`completed`, `report`). -/
structure Step where
  order : Int
  name : List Char
  description : List Char
  completed : Bool
  report : List Char
deriving DecidableEq, Repr

/-- One comparison step of Python `min(..., key=lambda step: step.order)`:
a strictly smaller key replaces the running minimum, so ties keep the
earliest element, as in CPython. -/
def pyMinStep (acc : Option Step) (s : Step) : Option Step :=
  match acc with
  | none => some s
  | some m => if s.order < m.order then some s else some m

/-- Python `min(steps, key=lambda step: step.order)` folded left to right. -/
def pyMinByOrder (l : List Step) : Option Step :=
  l.foldl pyMinStep none

/-- `utils.get_current_step`: the not-completed step of smallest order,
or `none` when every step is completed. -/
def get_current_step (plan : List Step) : Option Step :=
  let notCompleted := plan.filter (fun s => !s.completed)
  match notCompleted with
  | [] => none
  | _ => pyMinByOrder notCompleted

/-- Targets of the orchestrator's conditional edge out of
`check_if_skip_any_step`. -/
inductive RouteTarget where
  | step1
  | step2
  | step3
  | step4
  | step5
  | endNode
deriving DecidableEq, Repr

/-- `entry_graph.stage_router`: dispatches on the current step's order,
`END` when no step is incomplete or the order is unknown. -/
def stage_router (steps : List Step) : RouteTarget :=
  match get_current_step steps with
  | none => .endNode
  | some s =>
    if s.order = 1 then .step1
    else if s.order = 2 then .step2
    else if s.order = 3 then .step3
    else if s.order = 4 then .step4
    else if s.order = 5 then .step5
    else .endNode

lemma pyMinByOrder_fold_spec (l : List Step) (m0 : Step) :
    ∃ m, l.foldl pyMinStep (some m0) = some m ∧ (m = m0 ∨ m ∈ l) ∧
      m.order ≤ m0.order ∧ ∀ t ∈ l, m.order ≤ t.order := by
  induction l generalizing m0 with
  | nil => exact ⟨m0, rfl, Or.inl rfl, le_refl _, by simp⟩
  | cons s l ih =>
    simp only [List.foldl_cons, pyMinStep]
    by_cases h : s.order < m0.order
    · rw [if_pos h]
      obtain ⟨m, heq, hmem, hle, hall⟩ := ih s
      refine ⟨m, heq, ?_, le_of_lt (lt_of_le_of_lt hle h), ?_⟩
      · rcases hmem with h1 | h1
        · exact Or.inr (by simp [h1])
        · exact Or.inr (by simp [h1])
      · intro t ht
        rcases List.mem_cons.mp ht with h1 | h1
        · exact h1 ▸ hle
        · exact hall t h1
    · rw [if_neg h]
      obtain ⟨m, heq, hmem, hle, hall⟩ := ih m0
      refine ⟨m, heq, ?_, hle, ?_⟩
      · rcases hmem with h1 | h1
        · exact Or.inl h1
        · exact Or.inr (by simp [h1])
      · intro t ht
        rcases List.mem_cons.mp ht with h1 | h1
        · exact h1 ▸ le_trans hle (le_of_not_lt h)
        · exact hall t h1

lemma pyMinByOrder_spec (s : Step) (l : List Step) :
    ∃ m, pyMinByOrder (s :: l) = some m ∧ m ∈ s :: l ∧
      ∀ t ∈ s :: l, m.order ≤ t.order := by
  obtain ⟨m, heq, hmem, hle, hall⟩ := pyMinByOrder_fold_spec l s
  refine ⟨m, heq, ?_, ?_⟩
  · rcases hmem with h1 | h1
    · simp [h1]
    · simp [h1]
  · intro t ht
    rcases List.mem_cons.mp ht with h1 | h1
    · exact h1 ▸ hle
    · exact hall t h1

lemma get_current_step_eq (plan : List Step) :
    get_current_step plan = pyMinByOrder (plan.filter (fun s => !s.completed)) := by
  unfold get_current_step
  cases h : plan.filter (fun s => !s.completed) <;> simp [pyMinByOrder]

lemma get_current_step_none_iff (plan : List Step) :
    get_current_step plan = none ↔ ∀ s ∈ plan, s.completed = true := by
  rw [get_current_step_eq]
  cases h : plan.filter (fun s => !s.completed) with
  | nil =>
    simp only [pyMinByOrder, List.foldl_nil, true_iff]
    intro s hs
    by_contra hc
    have : s ∈ plan.filter (fun s => !s.completed) :=
      List.mem_filter.mpr ⟨hs, by simp [hc]⟩
    simp [h] at this
  | cons a l =>
    obtain ⟨m, heq, _, _⟩ := pyMinByOrder_spec a l
    rw [heq]
    simp only [reduceCtorEq, false_iff, not_forall]
    have ha : a ∈ plan.filter (fun s => !s.completed) := by simp [h]
    obtain ⟨hmem, hcomp⟩ := List.mem_filter.mp ha
    exact ⟨a, hmem, by simpa using hcomp⟩

lemma get_current_step_some (plan : List Step) (s : Step)
    (h : get_current_step plan = some s) :
    s ∈ plan ∧ s.completed = false ∧
      ∀ t ∈ plan, t.completed = false → s.order ≤ t.order := by
  rw [get_current_step_eq] at h
  cases hf : plan.filter (fun s => !s.completed) with
  | nil => rw [hf] at h; simp [pyMinByOrder] at h
  | cons a l =>
    rw [hf] at h
    obtain ⟨m, heq, hmem, hall⟩ := pyMinByOrder_spec a l
    rw [heq] at h
    cases h
    have hmem2 := List.mem_filter.mp (hf ▸ hmem)
    refine ⟨hmem2.1, by simpa using hmem2.2, ?_⟩
    intro t ht htc
    exact hall t (hf ▸ List.mem_filter.mpr ⟨ht, by simp [htc]⟩)


/-- Claim C10 counterexample: with an odd budget the annotation's reported
count does not equal the number of characters actually removed.  For the
10-character input and budget 5, the head and tail keep 2 characters each
(4 kept, 6 omitted) yet the annotation reports `len(s) - max_length = 5`
omitted characters. -/
theorem c10_counterexample :
    truncate_string_middle "0123456789".data 5
        = "01 ... [TRUNCATED, 5 chars omitted] ... 89".data ∧
      "0123456789".data.length
          - ((pyTake "0123456789".data 2).length
            + (pyTailSlice "0123456789".data 2).length) = 6 ∧
      (6 : Nat) ≠ 5 := by
  refine ⟨by decide, by decide, by decide⟩

/-- Claim C10 (amended): `truncate_string_middle(s, n)` returns `s` unchanged
when `len(s) ≤ n`; otherwise (for budgets `n ≥ 2`) it returns the first
`n / 2` characters, an annotation reporting `len(s) - n` omitted characters,
and the last `n / 2` characters.  The reported count equals `len(s)` minus
the number of characters kept exactly when `n` is even (it under-reports by
one when `n` is odd); the 5,000-character / budget-1,000 example of the
claim falls in the even case. -/
theorem c10_amended (s : List Char) (n : Nat) :
    (s.length ≤ n → truncate_string_middle s n = s) ∧
    (n < s.length → 2 ≤ n →
      truncate_string_middle s n
          = pyTake s (n / 2) ++ " ... [TRUNCATED, ".data
            ++ (Nat.repr (s.length - n)).data ++ " chars omitted] ... ".data
            ++ pyTailSlice s (n / 2) ∧
        pyTailSlice s (n / 2) = s.drop (s.length - n / 2) ∧
        (n % 2 = 0 →
          s.length - n
            = s.length
              - ((pyTake s (n / 2)).length + (pyTailSlice s (n / 2)).length))) := by
  constructor
  · intro h
    unfold truncate_string_middle
    rw [if_pos h]
  · intro h hn
    have hhalf : n / 2 ≠ 0 := by omega
    have htail : pyTailSlice s (n / 2) = s.drop (s.length - n / 2) := by
      unfold pyTailSlice
      rw [if_neg hhalf]
    refine ⟨?_, htail, ?_⟩
    · unfold truncate_string_middle
      rw [if_neg (by omega)]
    · intro heven
      have h1 : (pyTake s (n / 2)).length = n / 2 := by
        unfold pyTake
        rw [List.length_take]
        omega
      have h2 : (pyTailSlice s (n / 2)).length = n / 2 := by
        rw [htail, List.length_drop]
        omega
      rw [h1, h2]
      omega

/-- Claim C10 witness: the amended statement instantiated at the claim's own
example, a 5,000-character string with budget 1,000: the 500-character head
and tail are kept and 4,000 omitted characters are reported. -/
theorem c10_amended_witness :
    truncate_string_middle (List.replicate 5000 'a') 1000
      = pyTake (List.replicate 5000 'a') (1000 / 2) ++ " ... [TRUNCATED, ".data
        ++ (Nat.repr (5000 - 1000)).data ++ " chars omitted] ... ".data
        ++ pyTailSlice (List.replicate 5000 'a') (1000 / 2) ∧
    (5000 : Nat) - 1000
      = 5000
        - ((pyTake (List.replicate 5000 'a') (1000 / 2)).length
          + (pyTailSlice (List.replicate 5000 'a') (1000 / 2)).length) := by
  have hlen : (List.replicate 5000 'a').length = 5000 := List.length_replicate 5000 'a'
  have h := (c10_amended (List.replicate 5000 'a') 1000).2
    (by rw [hlen]; norm_num) (by norm_num)
  obtain ⟨h1, _, h3⟩ := h
  rw [hlen] at h1
  have h3' := h3 (by norm_num)
  rw [hlen] at h3'
  exact ⟨h1, h3'⟩

/-- The exceptions `common.retry_on` can receive, as concrete Python
exception values.  Representative subclasses are included so the
`isinstance` chain's hierarchy behaviour is modelled: in CPython,
`ConnectionError`, `FileNotFoundError` and `TimeoutError` are `OSError`
subclasses, `requests.HTTPError` subclasses `OSError` (via `IOError`),
`httpx.HTTPStatusError` does not, `ZeroDivisionError < ArithmeticError`,
`ModuleNotFoundError < ImportError`, `KeyError`/`IndexError < LookupError`,
`NotImplementedError`/`RecursionError < RuntimeError`. -/
inductive PyExc where
  | connectionError
  | httpxHTTPStatusError (status : Nat)
  | requestsHTTPError (status : Option Nat)
  | valueError
  | typeError
  | arithmeticError
  | zeroDivisionError
  | importError
  | moduleNotFoundError
  | lookupError
  | keyError
  | indexError
  | nameError
  | syntaxError
  | runtimeError
  | notImplementedError
  | recursionError
  | referenceError
  | stopIteration
  | stopAsyncIteration
  | osError
  | fileNotFoundError
  | timeoutError
  | otherException
deriving DecidableEq, Repr

/-- Python `isinstance(exc, ConnectionError)`. -/
def isConnectionError : PyExc → Bool
  | .connectionError => true
  | _ => false

/-- Python `isinstance(exc, httpx.HTTPStatusError)`. -/
def isHttpxHTTPStatusError : PyExc → Bool
  | .httpxHTTPStatusError _ => true
  | _ => false

/-- Python `isinstance(exc, requests.HTTPError)`. -/
def isRequestsHTTPError : PyExc → Bool
  | .requestsHTTPError _ => true
  | _ => false

/-- Python `isinstance(exc, (ValueError, TypeError, ArithmeticError,
ImportError, LookupError, NameError, SyntaxError, RuntimeError,
ReferenceError, StopIteration, StopAsyncIteration, OSError))`, the
fatal tuple of `common.retry_on`, with subclass relations as in CPython
(note `ConnectionError`, `FileNotFoundError`, `TimeoutError` and
`requests.HTTPError` all count as `OSError`). -/
def isFatalTupleMember : PyExc → Bool
  | .valueError => true
  | .typeError => true
  | .arithmeticError => true
  | .zeroDivisionError => true
  | .importError => true
  | .moduleNotFoundError => true
  | .lookupError => true
  | .keyError => true
  | .indexError => true
  | .nameError => true
  | .syntaxError => true
  | .runtimeError => true
  | .notImplementedError => true
  | .recursionError => true
  | .referenceError => true
  | .stopIteration => true
  | .stopAsyncIteration => true
  | .osError => true
  | .fileNotFoundError => true
  | .timeoutError => true
  | .connectionError => true
  | .requestsHTTPError _ => true
  | _ => false

/-- Python truthiness of a `requests.Response`: `Response.__bool__` is
`response.ok`, which is `status_code < 400`.  So `if exc.response:` is
false not only for a missing response but for any attached response with
a 4xx or 5xx status. -/
def pyResponseTruthy (status : Nat) : Bool := status < 400

/-- `common.retry_on`: the per-node retry classifier, checked in source
order — builtin `ConnectionError` first, then the two HTTP error classes,
then the fatal tuple, else retryable.  For `httpx.HTTPStatusError` the
status is read directly; for `requests.HTTPError` the source guards with
`if exc.response`, which is Response truthiness (`response.ok`), so a
response with status ≥ 400 falls to the `else True` branch. -/
def retry_on (exc : PyExc) : Bool :=
  if isConnectionError exc then true
  else if isHttpxHTTPStatusError exc then
    match exc with
    | .httpxHTTPStatusError status => 500 ≤ status && status < 600
    | _ => false
  else if isRequestsHTTPError exc then
    match exc with
    | .requestsHTTPError (some status) =>
      if pyResponseTruthy status then 500 ≤ status && status < 600 else true
    | _ => true
  else if isFatalTupleMember exc then false
  else true

/-- The explicit fatal deny-list exactly as claim C6 states it: the
programming-error classes (with their subclasses) plus HTTP errors whose
status is known and outside the 5xx class.  Connection failures and
status-less HTTP errors are not on it. -/
def claimedFatal : PyExc → Bool
  | .httpxHTTPStatusError status => !(500 ≤ status && status < 600)
  | .requestsHTTPError (some status) => !(500 ≤ status && status < 600)
  | .requestsHTTPError none => false
  | .connectionError => false
  | .otherException => false
  | _ => true

/-- What `retry_on` actually treats as fatal: the programming-error deny
list, `httpx.HTTPStatusError` outside 5xx, and `requests.HTTPError` whose
attached response is truthy — status below 400 (such a status is never in
5xx, so the conditional returns `False`).  A `requests.HTTPError` with a
4xx or 5xx response is falsy and retries. -/
def amendedFatal : PyExc → Bool
  | .httpxHTTPStatusError status => !(500 ≤ status && status < 600)
  | .requestsHTTPError (some status) => status < 400
  | .requestsHTTPError none => false
  | .connectionError => false
  | .otherException => false
  | _ => true

/-- Claim C6 counterexample: a `requests.HTTPError` carrying a 404
response is on the claim's deny-list (status not in the 5xx class), yet
`retry_on` returns `true` (retryable): `bool(Response)` is `response.ok`,
so the 404 response is falsy and common.py's `if exc.response` takes the
`else True` branch instead of the status test. -/
theorem c6_counterexample :
    retry_on (PyExc.requestsHTTPError (some 404)) = true ∧
      claimedFatal (PyExc.requestsHTTPError (some 404)) = true := by
  exact ⟨rfl, rfl⟩

/-- Claim C6 (amended): `retry_on` is total over the modelled exceptions
and returns `false` (non-retryable) exactly for: the programming-error
classes of the fatal tuple, `httpx.HTTPStatusError` with a status outside
the 5xx class, and `requests.HTTPError` with a truthy (status < 400)
response.  Because a `requests.Response` with status ≥ 400 is falsy,
every `requests.HTTPError` with a 4xx or 5xx response — and any without a
response — is retryable, as are builtin connection failures, httpx 5xx
errors, and every unclassified exception. -/
theorem c6_amended (exc : PyExc) :
    retry_on exc = false ↔ amendedFatal exc = true := by
  cases exc with
  | httpxHTTPStatusError status =>
    simp only [retry_on, amendedFatal, isConnectionError, isHttpxHTTPStatusError,
      Bool.if_false_left, Bool.if_true_left]
    simp
    omega
  | requestsHTTPError status =>
    cases status with
    | none => decide
    | some s =>
      simp only [retry_on, amendedFatal, isConnectionError, isHttpxHTTPStatusError,
        isRequestsHTTPError, pyResponseTruthy]
      by_cases h : s < 400
      · simp [h]
        omega
      · simp [h]
  | _ => decide

/-- `check_if_skip_any_step`'s loop body (and, with a report, the loop in
each stage's `write_step_report`): sets the first step of the given order
to completed, leaving the rest untouched (the Python loop breaks after the
first match). -/
def markOrderCompleted : List Step → Int → List Step
  | [], _ => []
  | s :: rest, ord =>
    if s.order = ord then { s with completed := true } :: rest
    else s :: markOrderCompleted rest ord

/-- The loop in `write_step_report` (steps 2-5): sets the first step of the
given order to completed and stores its report, then breaks. -/
def markOrderReport : List Step → Int → List Char → List Step
  | [], _, _ => []
  | s :: rest, ord, r =>
    if s.order = ord then { s with completed := true, report := r } :: rest
    else s :: markOrderReport rest ord r

/-- `state.get_default_steps`: the five default stage descriptors. -/
def get_default_steps : List Step :=
  [⟨1, "Define the Objective".data,
    "Understand the problem and set goals".data, false, []⟩,
   ⟨2, "Data Cleaning".data,
    "Handle missing data, fix errors, and filter irrelevant data".data, false, []⟩,
   ⟨3, "Data Exploration".data,
    "Summarize data and find anomalies/outliers".data, false, []⟩,
   ⟨4, "Data Analysis & Visualization".data, [], false, []⟩,
   ⟨5, "Write Report".data, [], false, []⟩]

/-- `entry_graph.check_if_skip_any_step`: marks the order-1 step completed
when the skip flag is set, otherwise leaves the steps unchanged. -/
def check_if_skip_any_step (steps : List Step) (skip : Bool) : List Step :=
  if skip then markOrderCompleted steps 1 else steps

/-- Nodes of the orchestrator (entry) graph. -/
inductive ENode where
  | start
  | checkSkip
  | s1
  | s2
  | s3
  | s4
  | s5
  | terminal
deriving DecidableEq, Repr

/-- The node a `stage_router` target resolves to. -/
def targetNode : RouteTarget → ENode
  | .step1 => .s1
  | .step2 => .s2
  | .step3 => .s3
  | .step4 => .s4
  | .step5 => .s5
  | .endNode => .terminal

/-- Orchestrator-level state: the stage descriptors and the
`skip_define_objective_step` configuration flag. -/
structure EState where
  steps : List Step
  skip : Bool
deriving DecidableEq, Repr

/-- One transition of the orchestrator graph of `entry_graph.py`:
`START → check_if_skip_any_step`, which routes through `stage_router`
once, after which the stage sub-graphs are chained by the static edges
`step_k → step_(k+1) → ... → END`.  Each stage node's effect on the
`steps` field summarises its sub-graph: the stage-1 sub-graph never
updates `steps` (no node of `step_1_define_objective.py` writes them),
stages 2-4 run `write_step_report`, which marks their own descriptor
completed with a report, and stage 5 writes only `final_report`, never
touching `steps`. -/
inductive ETrans : ENode × EState → ENode × EState → Prop where
  | fromStart (st : EState) : ETrans (.start, st) (.checkSkip, st)
  | fromCheckSkip (st : EState) (n : ENode) (steps2 : List Step)
      (hsteps : steps2 = check_if_skip_any_step st.steps st.skip)
      (hn : n = targetNode (stage_router steps2)) :
      ETrans (.checkSkip, st) (n, ⟨steps2, st.skip⟩)
  | runStage1 (st : EState) : ETrans (.s1, st) (.s2, st)
  | runStage2 (st : EState) (r : List Char) :
      ETrans (.s2, st) (.s3, ⟨markOrderReport st.steps 2 r, st.skip⟩)
  | runStage3 (st : EState) (r : List Char) :
      ETrans (.s3, st) (.s4, ⟨markOrderReport st.steps 3 r, st.skip⟩)
  | runStage4 (st : EState) (r : List Char) :
      ETrans (.s4, st) (.s5, ⟨markOrderReport st.steps 4 r, st.skip⟩)
  | runStage5 (st : EState) : ETrans (.s5, st) (.terminal, st)

/-- Reachability in the orchestrator graph. -/
def EReach : ENode × EState → ENode × EState → Prop :=
  Relation.ReflTransGen ETrans

/-- In the default non-skip run, the stage-2 node is entered while the
order-1 descriptor is still not completed: the router is consulted only
once, stage 1's sub-graph never writes its completion flag, and the static
edge `step_1 → step_2` fires regardless. -/
lemma entry_reaches_stage2_incomplete :
    EReach (.start, ⟨get_default_steps, false⟩)
      (.s2, ⟨get_default_steps, false⟩) := by
  refine Relation.ReflTransGen.head (ETrans.fromStart _) ?_
  refine Relation.ReflTransGen.head
    (ETrans.fromCheckSkip ⟨get_default_steps, false⟩ .s1 get_default_steps
      (by decide) (by decide)) ?_
  exact Relation.ReflTransGen.single (ETrans.runStage1 _)

/-- The order-1 default stage descriptor, used to instantiate theorems. -/
def defaultStep1 : Step :=
  ⟨1, "Define the Objective".data,
    "Understand the problem and set goals".data, false, []⟩

/-- Claim C8 counterexample: in the default non-skip run the stage-2
sub-graph node is reached while the order-1 stage descriptor still has
`completed = false` — the claim's consequence that stage `i+1` never
begins while stage `i` is incomplete does not hold of the orchestrator,
because the stage sub-graphs are chained by static edges and the stage-1
sub-graph never sets its completion flag. -/
theorem c8_counterexample :
    EReach (.start, ⟨get_default_steps, false⟩)
        (.s2, ⟨get_default_steps, false⟩) ∧
      defaultStep1 ∈ get_default_steps ∧ defaultStep1.order = 1 ∧
      defaultStep1.completed = false := by
  exact ⟨entry_reaches_stage2_incomplete, by decide, by decide, by decide⟩

/-- Claim C8 (amended): `get_current_step` returns the first not-completed
step of smallest order (`none` exactly when every step is completed), and
`stage_router` dispatches on exactly that step's order, returning the
terminal `END` when no incomplete step remains — so at most one stage is
"current".  However, stage `i+1`'s sub-graph CAN begin while stage `i`'s
completed flag is false: the router is consulted only on entry, the stage
sub-graphs are chained by static edges, and the stage-1 sub-graph never
sets its flag, so the stage-2 node is reached with stage 1 incomplete. -/
theorem c8_amended :
    (∀ plan, get_current_step plan = none ↔ ∀ s ∈ plan, s.completed = true) ∧
    (∀ plan s, get_current_step plan = some s →
      s ∈ plan ∧ s.completed = false ∧
        ∀ t ∈ plan, t.completed = false → s.order ≤ t.order) ∧
    (∀ plan, get_current_step plan = none → stage_router plan = .endNode) ∧
    (∀ plan s, get_current_step plan = some s →
      stage_router plan
        = if s.order = 1 then .step1 else if s.order = 2 then .step2
          else if s.order = 3 then .step3 else if s.order = 4 then .step4
          else if s.order = 5 then .step5 else .endNode) ∧
    EReach (.start, ⟨get_default_steps, false⟩)
      (.s2, ⟨get_default_steps, false⟩) := by
  refine ⟨get_current_step_none_iff, get_current_step_some, ?_, ?_,
    entry_reaches_stage2_incomplete⟩
  · intro plan h
    unfold stage_router
    rw [h]
  · intro plan s h
    unfold stage_router
    rw [h]

/-- Claim C8 witness: the amended statement applied to the default plan,
whose current step is the order-1 descriptor, routed to stage 1. -/
theorem c8_amended_witness :
    defaultStep1 ∈ get_default_steps ∧ defaultStep1.completed = false ∧
      (∀ t ∈ get_default_steps, t.completed = false →
        defaultStep1.order ≤ t.order) ∧
      stage_router get_default_steps = .step1 := by
  have h1 := c8_amended.2.1 get_default_steps defaultStep1 (by decide)
  have h2 := c8_amended.2.2.2.1 get_default_steps defaultStep1 (by decide)
  refine ⟨h1.1, h1.2.1, h1.2.2, ?_⟩
  rw [h2]
  decide

/-- Python dict keys occurring in the serialized payloads: the labels of a
DataFrame index and the column names (`to_dict` produces
`{column: {index_label: value}}`). -/
inductive PKey where
  | int (n : Int)
  | str (s : List Char)
deriving DecidableEq, Repr

/-- Picklable Python values, as far as the checkpoint serializer handles
them: scalars, tuples, lists, dicts with hashable keys, NaN (the filler
pandas uses for a missing index entry) and pandas DataFrames.  A DataFrame
is its index-label list plus its columns (name and cell list). -/
inductive PValue where
  | int (n : Int)
  | str (s : List Char)
  | boolV (b : Bool)
  | noneV
  | nan
  | tuple (vs : List PValue)
  | listV (vs : List PValue)
  | dict (entries : List (PKey × PValue))
  | dataFrame (index : List PKey) (cols : List (PKey × List PValue))

/-- The serializer's special type marker for tabular payloads. -/
def dfMarker : List Char := "DataFrame".data

/-- Inserting into a Python dict: an existing key keeps its position and
takes the new value, a new key is appended. -/
def dictInsert (es : List (PKey × PValue)) (k : PKey) (v : PValue) :
    List (PKey × PValue) :=
  if es.any (fun e => decide (e.1 = k)) then
    es.map (fun e => if e.1 = k then (e.1, v) else e)
  else es ++ [(k, v)]

/-- Building a Python dict from a pair sequence (later duplicates
overwrite in place). -/
def mkPyDict (pairs : List (PKey × PValue)) : List (PKey × PValue) :=
  pairs.foldl (fun acc p => dictInsert acc p.1 p.2) []

/-- `DataFrame.to_dict()` (default orient): a dict mapping each column
name to a dict from index label to cell value. -/
def df_to_dict (index : List PKey) (cols : List (PKey × List PValue)) : PValue :=
  .dict (mkPyDict (cols.map fun c => (c.1, PValue.dict (mkPyDict (index.zip c.2)))))

/-- Python `d.get(k, default)` over the modelled dict. -/
def lookupD (es : List (PKey × PValue)) (k : PKey) (d : PValue) : PValue :=
  match es.find? (fun e => decide (e.1 = k)) with
  | some e => e.2
  | none => d

/-- First-appearance union of key lists, as pandas computes a DataFrame
index from a dict of dicts. -/
def dedupKeys : List PKey → List PKey
  | [] => []
  | k :: ks => k :: (dedupKeys ks).filter (fun x => decide (x ≠ k))

/-- Is the value a Python dict? -/
def isDictV : PValue → Bool
  | .dict _ => true
  | _ => false

/-- The entry list of a dict value (unused default for other values). -/
def dictEntries : PValue → List (PKey × PValue)
  | .dict es => es
  | _ => []

/-- `pd.DataFrame.from_dict` on a dict-of-dicts payload: columns in key
order, index the first-appearance union of the inner keys, missing cells
filled with NaN.  Any other payload makes pandas raise, modelled as
`none`. -/
def df_from_dict : PValue → Option (List PKey × List (PKey × List PValue))
  | .dict entries =>
    if entries.all (fun e => isDictV e.2) then
      let index := dedupKeys (entries.map (fun e => (dictEntries e.2).map Prod.fst)).flatten
      some (index,
        entries.map fun e => (e.1, index.map fun i => lookupD (dictEntries e.2) i .nan))
    else none
  | _ => none

/-- Opaque pickled bytes: `pickle.dumps` is injective on picklable values
and `pickle.loads` restores them exactly. -/
structure PBytes where
  val : PValue

/-- `pickle.dumps`. -/
def pickleDumps (v : PValue) : PBytes := ⟨v⟩

/-- `pickle.loads`. -/
def pickleLoads (b : PBytes) : PValue := b.val

/-- Does the value equal the Python string "DataFrame"?  (Python `==`
against a non-string is simply `False`.) -/
def isDfMarkerV : PValue → Bool
  | .str s => decide (s = dfMarker)
  | _ => false

namespace CustomSerializer

/-- `CustomSerializer.dumps`: a DataFrame is pickled as the tuple
`("DataFrame", df.to_dict())`; everything else is pickled as-is. -/
def dumps (obj : PValue) : PBytes :=
  match obj with
  | .dataFrame index cols => pickleDumps (.tuple [.str dfMarker, df_to_dict index cols])
  | _ => pickleDumps obj

/-- `CustomSerializer.dumps_typed`: a DataFrame gets the "DataFrame" type
tag with its pickled `to_dict()`; everything else gets the "pickle" tag. -/
def dumps_typed (obj : PValue) : List Char × PBytes :=
  match obj with
  | .dataFrame index cols => (dfMarker, pickleDumps (df_to_dict index cols))
  | _ => ("pickle".data, pickleDumps obj)

/-- `CustomSerializer.loads`: unpickle, and if the result is a tuple whose
first element is "DataFrame", rebuild a DataFrame from its second element.
`none` models the Python exceptions this can raise (`IndexError` on a
short tuple, a pandas error on a malformed payload). -/
def loads (data : PBytes) : Option PValue :=
  match pickleLoads data with
  | .tuple [] => none
  | .tuple (v0 :: rest) =>
    if isDfMarkerV v0 then
      match rest with
      | [] => none
      | d :: _ => (df_from_dict d).map fun p => PValue.dataFrame p.1 p.2
    else some (.tuple (v0 :: rest))
  | obj => some obj

/-- `CustomSerializer.loads_typed`: the "DataFrame" tag rebuilds a
DataFrame from the unpickled dict, any other tag just unpickles. -/
def loads_typed (data : List Char × PBytes) : Option PValue :=
  if data.1 = dfMarker then
    (df_from_dict (pickleLoads data.2)).map fun p => PValue.dataFrame p.1 p.2
  else some (pickleLoads data.2)

end CustomSerializer

lemma mkPyDict_fold (ps acc : List (PKey × PValue))
    (h : (acc.map Prod.fst ++ ps.map Prod.fst).Nodup) :
    ps.foldl (fun a p => dictInsert a p.1 p.2) acc = acc ++ ps := by
  induction ps generalizing acc with
  | nil => simp
  | cons p ps ih =>
    have hnotin : p.1 ∉ acc.map Prod.fst := by
      intro hc
      exact (List.nodup_append.mp (by simpa using h)).2.2 hc
        (List.mem_cons_self _ _)
    have hins : dictInsert acc p.1 p.2 = acc ++ [p] := by
      unfold dictInsert
      rw [if_neg]
      simp only [List.any_eq_true, decide_eq_true_eq, not_exists, not_and]
      push_neg
      intro e he
      exact fun heq => hnotin (heq ▸ List.mem_map_of_mem Prod.fst he)
    rw [List.foldl_cons, hins, ih, List.append_assoc]
    · simp
    · simpa [List.append_assoc] using h

lemma mkPyDict_nodup (ps : List (PKey × PValue))
    (h : (ps.map Prod.fst).Nodup) : mkPyDict ps = ps := by
  have := mkPyDict_fold ps [] (by simpa using h)
  simpa [mkPyDict] using this

lemma dedupKeys_nodup_eq (l : List PKey) (h : l.Nodup) : dedupKeys l = l := by
  induction l with
  | nil => rfl
  | cons k ks ih =>
    obtain ⟨hk, hks⟩ := List.nodup_cons.mp h
    unfold dedupKeys
    rw [ih hks, List.filter_eq_self.mpr]
    intro x hx
    simp only [decide_eq_true_eq]
    exact fun heq => hk (heq ▸ hx)

lemma dedupKeys_append_notmem (t : List PKey) (x : PKey) (h : x ∉ t) :
    dedupKeys (t ++ [x]) = dedupKeys t ++ [x] := by
  induction t with
  | nil => rfl
  | cons k t ih =>
    have hxk : x ≠ k := fun heq => h (heq ▸ List.mem_cons_self _ _)
    have hxt : x ∉ t := fun hm => h (List.mem_cons_of_mem _ hm)
    show k :: (dedupKeys (t ++ [x])).filter (fun y => decide (y ≠ k))
        = (k :: (dedupKeys t).filter (fun y => decide (y ≠ k))) ++ [x]
    rw [ih hxt, List.filter_append]
    simp [hxk]

lemma dedupKeys_append_mem (t : List PKey) (x : PKey) (h : x ∈ t) :
    dedupKeys (t ++ [x]) = dedupKeys t := by
  induction t with
  | nil => simp at h
  | cons k t ih =>
    show k :: (dedupKeys (t ++ [x])).filter (fun y => decide (y ≠ k))
        = k :: (dedupKeys t).filter (fun y => decide (y ≠ k))
    rcases List.mem_cons.mp h with heq | hmem
    · subst heq
      by_cases hxt : x ∈ t
      · rw [ih hxt]
      · rw [dedupKeys_append_notmem t x hxt, List.filter_append]
        simp
    · rw [ih hmem]

lemma dedupKeys_append_subset (l m : List PKey) (h : ∀ x ∈ m, x ∈ l) :
    dedupKeys (l ++ m) = dedupKeys l := by
  induction m using List.reverseRecOn with
  | nil => simp
  | append_singleton m x ih =>
    have hx : x ∈ l ++ m := List.mem_append_left _ (h x (by simp))
    calc dedupKeys (l ++ (m ++ [x])) = dedupKeys ((l ++ m) ++ [x]) := by
          rw [List.append_assoc]
      _ = dedupKeys (l ++ m) := dedupKeys_append_mem _ _ hx
      _ = dedupKeys l := ih (fun y hy => h y (by simp [hy]))

lemma lookupD_zip_self (index : List PKey) (vals : List PValue) (d : PValue)
    (hnd : index.Nodup) (hlen : vals.length = index.length) :
    index.map (fun i => lookupD (index.zip vals) i d) = vals := by
  induction index generalizing vals with
  | nil =>
    cases vals with
    | nil => simp
    | cons v vs => simp at hlen
  | cons i is ih =>
    cases vals with
    | nil => simp at hlen
    | cons v vs =>
      obtain ⟨hnotin, hnd2⟩ := List.nodup_cons.mp hnd
      simp only [List.zip_cons_cons, List.map_cons]
      congr 1
      · unfold lookupD
        rw [List.find?_cons_of_pos _ (by simp)]
      · have hcong : ∀ j ∈ is,
            lookupD ((i, v) :: is.zip vs) j d = lookupD (is.zip vs) j d := by
          intro j hj
          unfold lookupD
          rw [List.find?_cons_of_neg _ ?_]
          simp only [decide_eq_true_eq]
          exact fun heq => hnotin (heq ▸ hj)
        rw [List.map_congr_left hcong]
        exact ih vs hnd2 (by simpa using hlen)

/-- A well-formed DataFrame: every column has one cell per index entry,
index labels are distinct, column names are distinct, and there is at
least one column (pandas `to_dict` of a zero-column frame drops the
index). -/
def WellFormedDF (index : List PKey) (cols : List (PKey × List PValue)) : Prop :=
  index.Nodup ∧ (cols.map Prod.fst).Nodup ∧
    (∀ c ∈ cols, c.2.length = index.length) ∧ cols ≠ []

lemma df_to_dict_eq (index : List PKey) (cols : List (PKey × List PValue))
    (hnd : index.Nodup) (hcnd : (cols.map Prod.fst).Nodup)
    (hlen : ∀ c ∈ cols, c.2.length = index.length) :
    df_to_dict index cols
      = .dict (cols.map fun c => (c.1, PValue.dict (index.zip c.2))) := by
  unfold df_to_dict
  congr 1
  have hinner : ∀ c ∈ cols, mkPyDict (index.zip c.2) = index.zip c.2 := by
    intro c hc
    apply mkPyDict_nodup
    rw [List.map_fst_zip _ _ (by rw [hlen c hc])]
    exact hnd
  rw [List.map_congr_left (fun c hc => by rw [hinner c hc])]
  apply mkPyDict_nodup
  simpa using hcnd

lemma df_from_dict_dict (entries : List (PKey × PValue)) :
    df_from_dict (.dict entries)
      = if (entries.all fun e => isDictV e.2) = true then
          some (dedupKeys (entries.map (fun e => (dictEntries e.2).map Prod.fst)).flatten,
            entries.map fun e => (e.1,
              (dedupKeys (entries.map (fun e => (dictEntries e.2).map Prod.fst)).flatten).map
                fun i => lookupD (dictEntries e.2) i .nan))
        else none := rfl

lemma df_roundtrip (index : List PKey) (cols : List (PKey × List PValue))
    (hwf : WellFormedDF index cols) :
    df_from_dict (df_to_dict index cols) = some (index, cols) := by
  obtain ⟨hnd, hcnd, hlen, hne⟩ := hwf
  rw [df_to_dict_eq index cols hnd hcnd hlen]
  rw [df_from_dict_dict]
  have hall : ((cols.map fun c => (c.1, PValue.dict (index.zip c.2))).all
      fun e => isDictV e.2) = true := by
    rw [List.all_eq_true]
    intro e he
    obtain ⟨c, hc, rfl⟩ := List.mem_map.mp he
    rfl
  rw [if_pos hall]
  have hkeys : (cols.map fun c => (c.1, PValue.dict (index.zip c.2))).map
        (fun e => (dictEntries e.2).map Prod.fst)
      = List.replicate cols.length index := by
    rw [List.map_map]
    have : ∀ c ∈ cols,
        ((fun e => (dictEntries e.2).map Prod.fst) ∘
          fun c => (c.1, PValue.dict (index.zip c.2))) c = index := by
      intro c hc
      show (dictEntries (PValue.dict (index.zip c.2))).map Prod.fst = index
      unfold dictEntries
      exact List.map_fst_zip _ _ (by rw [hlen c hc])
    rw [List.map_congr_left this, List.map_const']
  have hindex : dedupKeys ((cols.map fun c =>
        (c.1, PValue.dict (index.zip c.2))).map
          (fun e => (dictEntries e.2).map Prod.fst)).flatten = index := by
    rw [hkeys]
    cases cols with
    | nil => exact absurd rfl hne
    | cons c cs =>
      rw [List.length_cons, List.replicate_succ, List.flatten_cons]
      rw [dedupKeys_append_subset]
      · exact dedupKeys_nodup_eq index hnd
      · intro x hx
        obtain ⟨l, hl, hxl⟩ := List.mem_flatten.mp hx
        rwa [List.eq_of_mem_replicate hl] at hxl
  simp only [hindex]
  congr 1
  congr 1
  rw [List.map_map]
  conv_rhs => rw [show cols = cols.map id from (List.map_id cols).symm]
  apply List.map_congr_left
  intro c hc
  show (c.1, index.map fun i => lookupD (dictEntries (PValue.dict (index.zip c.2))) i .nan) = c
  unfold dictEntries
  rw [lookupD_zip_self index c.2 .nan hnd (hlen c hc)]

/-- A plain Python tuple whose first element happens to be the string
"DataFrame" — not a DataFrame. -/
def markerTuple : PValue :=
  .tuple [.str dfMarker, .dict [(.str ['a'], .dict [(.int 0, .int 1)])]]

/-- Claim C7 counterexample: the untyped round-trip is not the identity on
all non-DataFrame picklable values.  The tuple
`("DataFrame", {"a": {0: 1}})` is pickled as-is by `dumps`, but `loads`
sees the marker in position 0 and rebuilds a DataFrame, so the value does
not round-trip to an equal value. -/
theorem c7_counterexample :
    CustomSerializer.loads (CustomSerializer.dumps markerTuple)
        = some (.dataFrame [.int 0] [(.str ['a'], [.int 1])]) ∧
      CustomSerializer.loads (CustomSerializer.dumps markerTuple)
        ≠ some markerTuple := by
  refine ⟨rfl, ?_⟩
  intro h
  have h1 : CustomSerializer.loads (CustomSerializer.dumps markerTuple)
      = some (.dataFrame [.int 0] [(.str ['a'], [.int 1])]) := rfl
  have h2 := h1.symm.trans h
  simp [markerTuple] at h2

/-- Claim C7 (amended): for well-formed DataFrames (distinct index labels,
distinct column names, rectangular, at least one column) both the typed
and the untyped round-trip reproduce the DataFrame exactly — same columns,
same rows, same cells.  Every non-DataFrame value round-trips to an equal
value under the typed path, and under the untyped path as long as it is
not a tuple whose first element is the string "DataFrame" (rebuilt as a
DataFrame) and not the empty tuple (IndexError in `loads`). -/
theorem c7_amended :
    (∀ index cols, WellFormedDF index cols →
      CustomSerializer.loads_typed
          (CustomSerializer.dumps_typed (.dataFrame index cols))
          = some (.dataFrame index cols) ∧
        CustomSerializer.loads (CustomSerializer.dumps (.dataFrame index cols))
          = some (.dataFrame index cols)) ∧
    (∀ v : PValue, (∀ index cols, v ≠ .dataFrame index cols) →
      CustomSerializer.loads_typed (CustomSerializer.dumps_typed v) = some v) ∧
    (∀ v : PValue, (∀ index cols, v ≠ .dataFrame index cols) →
      (∀ rest, v ≠ .tuple (.str dfMarker :: rest)) → v ≠ .tuple [] →
      CustomSerializer.loads (CustomSerializer.dumps v) = some v) := by
  refine ⟨?_, ?_, ?_⟩
  · intro index cols hwf
    constructor
    · have h1 : CustomSerializer.loads_typed
          (CustomSerializer.dumps_typed (.dataFrame index cols))
          = (df_from_dict (df_to_dict index cols)).map
            fun p => PValue.dataFrame p.1 p.2 := rfl
      rw [h1, df_roundtrip index cols hwf]
      rfl
    · have h2 : CustomSerializer.loads
          (CustomSerializer.dumps (.dataFrame index cols))
          = (df_from_dict (df_to_dict index cols)).map
            fun p => PValue.dataFrame p.1 p.2 := rfl
      rw [h2, df_roundtrip index cols hwf]
      rfl
  · intro v hv
    cases v with
    | int n => rfl
    | str s => rfl
    | boolV b => rfl
    | noneV => rfl
    | nan => rfl
    | tuple vs => rfl
    | listV vs => rfl
    | dict es => rfl
    | dataFrame index cols => exact absurd rfl (hv index cols)
  · intro v hdf hmark hne
    cases v with
    | int n => rfl
    | str s => rfl
    | boolV b => rfl
    | noneV => rfl
    | nan => rfl
    | listV vs => rfl
    | dict es => rfl
    | dataFrame index cols => exact absurd rfl (hdf index cols)
    | tuple vs =>
      cases vs with
      | nil => exact absurd rfl hne
      | cons v0 rest =>
        have hm : isDfMarkerV v0 = false := by
          cases v0 with
          | str s =>
            simp only [isDfMarkerV, decide_eq_false_iff_not]
            intro heq
            exact hmark rest (by rw [heq])
          | int n => rfl
          | boolV b => rfl
          | noneV => rfl
          | nan => rfl
          | tuple a => rfl
          | listV a => rfl
          | dict a => rfl
          | dataFrame a b => rfl
        unfold CustomSerializer.dumps CustomSerializer.loads
        simp [pickleDumps, pickleLoads, hm]

/-- Claim C7 witness: the amended round-trip at a concrete two-row,
one-column DataFrame and at a concrete scalar. -/
theorem c7_amended_witness :
    CustomSerializer.loads_typed (CustomSerializer.dumps_typed
        (.dataFrame [PKey.int 0, PKey.int 1]
          [(PKey.str ['a'], [PValue.int 1, PValue.int 2])]))
      = some (.dataFrame [PKey.int 0, PKey.int 1]
          [(PKey.str ['a'], [PValue.int 1, PValue.int 2])]) ∧
    CustomSerializer.loads (CustomSerializer.dumps (PValue.int 7))
      = some (PValue.int 7) := by
  have hwf : WellFormedDF [PKey.int 0, PKey.int 1]
      [(PKey.str ['a'], [PValue.int 1, PValue.int 2])] := by
    refine ⟨by decide, by decide, ?_, List.cons_ne_nil _ _⟩
    intro c hc
    rw [List.mem_singleton.mp hc]
    rfl
  refine ⟨(c7_amended.1 _ _ hwf).1, ?_⟩
  exact c7_amended.2.2 (PValue.int 7)
    (fun _ _ h => by cases h) (fun _ h => by cases h) (fun h => by cases h)

/-- `state.DataType`: the artifact kind enumeration. -/
inductive DataType where
  | dataframe
  | json
  | text
  | string
  | png
deriving DecidableEq, Repr

/-- `state.Data`: a named artifact (`key`, `type`, `description`,
`value`). -/
structure Data where
  key : List Char
  type : DataType
  description : List Char
  value : PValue

/-- The merge applied to `InputState.variables`: the field is declared as a
plain `list[Data]` with no `Annotated` reducer, so LangGraph's default
last-value channel replaces the whole list with the incoming patch. -/
def variables_merge (_old new : List Data) : List Data := new

/-- The patch `get_save_variables_node`'s `save_variables` builds: for each
variable selected for saving (key and description), the sandbox evaluates
the key and every parsed `(value, type)` result is appended as a `Data`
entry with that key.  `results i` is the sandbox's parsed output for the
`i`-th selected variable. -/
def save_variables_patch (variablesToSave : List (List Char × List Char))
    (results : Nat → List (PValue × DataType)) : List Data :=
  variablesToSave.enum.flatMap fun p =>
    (results p.1).map fun rt => ⟨p.2.1, rt.2, p.2.2, rt.1⟩

/-- Claim C9 counterexample: a single merge of the variables field can
leave two artifacts with the same key.  Selecting the key "a" twice (with
one sandbox result each) produces a patch with two "a" entries, and the
merge keeps both — the state is not keyed with at most one entry per
key. -/
theorem c9_counterexample :
    ((variables_merge [⟨['b'], .json, [], .int 0⟩]
        (save_variables_patch [(['a'], ['d']), (['a'], ['e'])]
          (fun _ => [(.int 1, .json)]))).filter
      (fun dv => decide (dv.key = ['a']))).length = 2 ∧
    ¬ ((variables_merge [⟨['b'], .json, [], .int 0⟩]
        (save_variables_patch [(['a'], ['d']), (['a'], ['e'])]
          (fun _ => [(.int 1, .json)]))).filter
      (fun dv => decide (dv.key = ['a']))).length ≤ 1 := by
  refine ⟨rfl, ?_⟩
  intro h
  have h2 : (2 : Nat) ≤ 1 := by
    have h1 : ((variables_merge [⟨['b'], .json, [], .int 0⟩]
        (save_variables_patch [(['a'], ['d']), (['a'], ['e'])]
          (fun _ => [(.int 1, .json)]))).filter
      (fun dv => decide (dv.key = ['a']))).length = 2 := rfl
    rwa [h1] at h
  omega

/-- Claim C9 (amended): the variables (artifacts) field has no per-key
reducer — a merge replaces the entire previous list with the incoming
patch, so nothing of the old value survives (field-level last-writer-wins)
and the patch's entries, including several with the same key, are all kept
verbatim; at most one entry per key is not guaranteed. -/
theorem c9_amended (old patch : List Data) :
    variables_merge old patch = patch ∧
      (∀ dv, dv ∈ variables_merge old patch ↔ dv ∈ patch) :=
  ⟨rfl, fun _ => Iff.rfl⟩

/-- The opening fence `utils.extract_code_block` splits on. -/
def pythonFence : List Char := "```python".data

/-- The closing fence. -/
def codeFence : List Char := "```".data

/-- Python `"DONE" in content`. -/
def containsDone (content : List Char) : Bool :=
  containsSeq "DONE".data content

/-- `utils.extract_code_block`: returns `None` whenever the content
contains "DONE"; otherwise takes the text between the first "```python"
and the following "```" (stripped), `None` when there is no "```python"
(the `IndexError` is caught and swallowed). -/
def extract_code_block (content : List Char) : Option (List Char) :=
  if containsDone content then none
  else
    match pySplit pythonFence content with
    | _ :: part1 :: _ => some (pyStrip ((pySplit codeFence part1).headD []))
    | _ => none

/-- `common.ValidationResult`. -/
structure ValidationResult where
  chain_of_thought_summary : List Char
  pass_the_validation : Bool
  message_to_user : Option (List Char)
deriving DecidableEq, Repr

/-- Messages appended to a stage's `step_message_history`, tagged by which
node produced them (the prompt texts themselves carry no control flow). -/
inductive Msg where
  | system
  | seedHuman
  | ai (content : List Char)
  | execResult
  | corrective
  | limitNotice
  | checklistSummary (r : ValidationResult)
  | criticSummary (r : ValidationResult)
  | feedbackInstruction
  | injected (content : List Char)
deriving DecidableEq, Repr

/-- The stage-scoped state (`common.StepState` plus the carried-over
`OverallState` fields the stage sub-graph reads or writes). -/
structure StepSt where
  useHITL : Bool
  steps : List Step
  history : List Msg
  code_block : List Char
  variablesToSave : List (List Char × List Char)
  checklistResult : Option ValidationResult
  criticResult : Option (List ValidationResult)
deriving DecidableEq, Repr

/-- Nodes of a stage sub-graph (stages 2-4 share this shape).  The fan-out
to the two validators is tracked with two completion flags; the rendezvous
barrier node only runs once both are set. -/
inductive Node where
  | initSandbox
  | initHistory
  | agent
  | pythonExecutor
  | fanout (checklistDone : Bool) (criticDone : Bool)
  | rendevous
  | saveVariables
  | writeReport
  | doneNode
deriving DecidableEq, Repr

/-- Python truthiness of the extracted code block (`if code_block:`):
`None` and the empty string are falsy. -/
def cbTruthy : Option (List Char) → Bool
  | none => false
  | some l => !l.isEmpty

/-- The `agent` closure of `common.get_code_agent_node`, as a function of
the state, the generated response and the structured variables-to-save
selection.  Checked in source order: the turn limit first (routing to the
configured `next_node_name` with a limit notice), then a truthy code block
(to the executor), then "DONE" (fan-out to the two validators), else the
corrective clarify loop. -/
def agentStep (maxTurn : Nat) (nextNode : Node) (s : StepSt)
    (response : List Char) (vts : List (List Char × List Char)) :
    Node × StepSt :=
  if s.history.length > 2 * maxTurn then
    (nextNode, { s with history := s.history ++ [.limitNotice] })
  else if cbTruthy (extract_code_block response) then
    (.pythonExecutor, { s with
      history := s.history ++ [.ai response]
      code_block := (extract_code_block response).getD [] })
  else if containsDone response then
    (.fanout false false, { s with
      history := s.history ++ [.ai response]
      variablesToSave := vts })
  else
    (.agent, { s with history := s.history ++ [.ai response, .corrective] })

/-- The state patch of `checklist_validator`: stores the one result and
appends its formatted summary. -/
def applyChecklist (s : StepSt) (r : ValidationResult) : StepSt :=
  { s with
    checklistResult := some r
    history := s.history ++ [.checklistSummary r] }

/-- The state patch of `critic_validator`: stores the two results (first
identity, then second) and appends one summary per result. -/
def applyCritic (s : StepSt) (r1 r2 : ValidationResult) : StepSt :=
  { s with
    criticResult := some [r1, r2]
    history := s.history ++ [.criticSummary r1, .criticSummary r2] }

/-- `state.checklist_validation_result is not None and ....pass_the_validation`. -/
def checklistPassed : Option ValidationResult → Bool
  | none => false
  | some r => r.pass_the_validation

/-- The `all_critics_passed` expression of `rendevous`: the critic result
list exists, is non-empty, and every entry passed. -/
def allCriticsPassed : Option (List ValidationResult) → Bool
  | none => false
  | some l => !l.isEmpty && l.all (·.pass_the_validation)

/-- The combined advance condition of `rendevous`. -/
def validationOk (s : StepSt) : Bool :=
  checklistPassed s.checklistResult && allCriticsPassed s.criticResult

/-- Appends the standard "address both feedbacks" instruction. -/
def addFeedback (s : StepSt) : StepSt :=
  { s with history := s.history ++ [.feedbackInstruction] }

/-- The `use_human_in_the_loop = False` branch of `common.rendevous`:
advance to the next node iff the checklist result exists and passed and
all critic results exist, are non-empty and passed; otherwise loop back to
the agent with the feedback instruction. -/
def rendevousAuto (s : StepSt) : Node × StepSt :=
  if validationOk s then (.saveVariables, s) else (.agent, addFeedback s)

/-- The `use_human_in_the_loop = True` branch of `common.rendevous`, as a
function of the value the interrupt resumes with.  Before suspending it
formats `state.checklist_validation_result.pass_the_validation`, which
raises (`none`) when no checklist result is present.  The resume value is
then matched: "ignore" (lower-cased) advances unconditionally; "pass"
(lower-cased) or a whitespace-only string resumes the automatic decision;
anything else is injected into the history as a new human message. -/
def rendevousHITL (s : StepSt) (userInput : List Char) :
    Option (Node × StepSt) :=
  match s.checklistResult with
  | none => none
  | some _ =>
    some (
      if pyLower userInput = "ignore".data then (.saveVariables, s)
      else if pyLower userInput = "pass".data ∨ pyStrip userInput = [] then
        (if validationOk s then (.saveVariables, s) else (.agent, addFeedback s))
      else (.agent, { s with history := s.history ++ [.injected userInput] }))

/-- The per-stage turn bound of `step_2_data_cleaning.py`. -/
def maxMessageTurnStep2 : Nat := 30

/-- One transition of a stage sub-graph (stages 2-4; stage 2's wiring).
LLM responses, sandbox outputs and validator verdicts are free parameters:
the relation contains every behaviour of the external collaborators.
`write_step_report` marks the stage's descriptor (order 2) completed and
stores its report. -/
inductive STrans (maxTurn : Nat) : Node × StepSt → Node × StepSt → Prop where
  | initSandboxTr (s : StepSt) :
      STrans maxTurn (.initSandbox, s) (.initHistory, s)
  | initHistoryTr (s : StepSt) :
      STrans maxTurn (.initHistory, s)
        (.agent, { s with history := s.history ++ [.system, .seedHuman] })
  | agentTr (s : StepSt) (response : List Char)
      (vts : List (List Char × List Char)) :
      STrans maxTurn (.agent, s) (agentStep maxTurn .saveVariables s response vts)
  | execTr (s : StepSt) :
      STrans maxTurn (.pythonExecutor, s)
        (.agent, { s with history := s.history ++ [.execResult] })
  | checklistTr (s : StepSt) (kd : Bool) (r : ValidationResult) :
      STrans maxTurn (.fanout false kd, s) (.fanout true kd, applyChecklist s r)
  | criticTr (s : StepSt) (cd : Bool) (r1 r2 : ValidationResult) :
      STrans maxTurn (.fanout cd false, s) (.fanout cd true, applyCritic s r1 r2)
  | barrierTr (s : StepSt) :
      STrans maxTurn (.fanout true true, s) (.rendevous, s)
  | rendevousAutoTr (s : StepSt) (h : s.useHITL = false) :
      STrans maxTurn (.rendevous, s) (rendevousAuto s)
  | rendevousHITLTr (s : StepSt) (userInput : List Char) (out : Node × StepSt)
      (h : s.useHITL = true) (hout : rendevousHITL s userInput = some out) :
      STrans maxTurn (.rendevous, s) out
  | saveVariablesTr (s : StepSt) :
      STrans maxTurn (.saveVariables, s) (.writeReport, s)
  | writeReportTr (s : StepSt) (report : List Char) :
      STrans maxTurn (.writeReport, s)
        (.doneNode, { s with steps := markOrderReport s.steps 2 report })

/-- Reachability inside a stage sub-graph. -/
def SReach (maxTurn : Nat) : Node × StepSt → Node × StepSt → Prop :=
  Relation.ReflTransGen (STrans maxTurn)

/-- The stage's descriptor (order 2) is marked completed. -/
def step2Done (steps : List Step) : Bool :=
  steps.any (fun st => decide (st.order = 2) && st.completed)

/-- A fresh stage entry state: empty scratch fields and the stage not yet
completed. -/
def StageInit (s : StepSt) : Prop :=
  s.history = [] ∧ s.checklistResult = none ∧ s.criticResult = none ∧
    step2Done s.steps = false

/-- Both validators have contributed: a checklist result is present and
the critic result list is present and non-empty. -/
def resultsPresent (s : StepSt) : Prop :=
  s.checklistResult.isSome ∧ ∃ l, s.criticResult = some l ∧ l ≠ []

/-- Either both validators' results are in state, or the turn-limit notice
is in the history (the escape path ran). -/
def escOk (s : StepSt) : Prop :=
  resultsPresent s ∨ Msg.limitNotice ∈ s.history

/-- The inductive invariant of a stage sub-graph run: a completed stage
descriptor implies `escOk`; the rendezvous node only holds joined states;
the fan-out completion flags witness the corresponding results; the tail
of the graph (save-variables, write-report, done) only holds `escOk`
states. -/
def StageInv (c : Node × StepSt) : Prop :=
  (step2Done c.2.steps = true → escOk c.2) ∧
  (c.1 = .rendevous → resultsPresent c.2) ∧
  (∀ cd kd, c.1 = .fanout cd kd →
    (cd = true → c.2.checklistResult.isSome) ∧
    (kd = true → ∃ l, c.2.criticResult = some l ∧ l ≠ [])) ∧
  ((c.1 = .saveVariables ∨ c.1 = .writeReport ∨ c.1 = .doneNode) → escOk c.2)

lemma escOk_mk {s s' : StepSt}
    (hc : s.checklistResult.isSome = true → s'.checklistResult.isSome = true)
    (hk : ∀ L, s.criticResult = some L → L ≠ [] →
      ∃ L2, s'.criticResult = some L2 ∧ L2 ≠ [])
    (hh : Msg.limitNotice ∈ s.history → Msg.limitNotice ∈ s'.history) :
    escOk s → escOk s' := by
  rintro (⟨hc1, L, hL, hne⟩ | h)
  · obtain ⟨L2, hL2, hne2⟩ := hk L hL hne
    exact Or.inl ⟨hc hc1, L2, hL2, hne2⟩
  · exact Or.inr (hh h)


lemma stageInv_other {n : Node} {s : StepSt}
    (hn1 : n ≠ .rendevous) (hn2 : ∀ cd kd, n ≠ .fanout cd kd)
    (hn3 : n ≠ .saveVariables) (hn4 : n ≠ .writeReport) (hn5 : n ≠ .doneNode)
    (h1 : step2Done s.steps = true → escOk s) :
    StageInv (n, s) := by
  refine ⟨h1, fun hx => absurd hx hn1,
    fun cd kd hx => absurd hx (hn2 cd kd), fun hx => ?_⟩
  rcases hx with hx | hx | hx
  · exact absurd hx hn3
  · exact absurd hx hn4
  · exact absurd hx hn5

lemma stageInv_tail {n : Node} {s : StepSt}
    (hn1 : n ≠ .rendevous) (hn2 : ∀ cd kd, n ≠ .fanout cd kd)
    (hesc : escOk s) : StageInv (n, s) :=
  ⟨fun _ => hesc, fun hx => absurd hx hn1,
    fun cd kd hx => absurd hx (hn2 cd kd), fun _ => hesc⟩

lemma stageInv_fanoutNode {cd kd : Bool} {s : StepSt}
    (h1 : step2Done s.steps = true → escOk s)
    (hc : cd = true → s.checklistResult.isSome = true)
    (hk : kd = true → ∃ l, s.criticResult = some l ∧ l ≠ []) :
    StageInv (.fanout cd kd, s) := by
  refine ⟨h1, fun hx => ?_, fun cd2 kd2 hx => ?_, fun hx => ?_⟩
  · exact nomatch hx
  · injection hx with e1 e2
    subst e1; subst e2
    exact ⟨hc, hk⟩
  · rcases hx with hx | hx | hx <;> exact nomatch hx

lemma stageInv_rendezvousNode {s : StepSt} (hres : resultsPresent s) :
    StageInv (.rendevous, s) := by
  refine ⟨fun _ => Or.inl hres, fun _ => hres, fun cd kd hx => ?_, fun hx => ?_⟩
  · exact nomatch hx
  · rcases hx with hx | hx | hx <;> exact nomatch hx

lemma escOk_extendH {s : StepSt} {s' : StepSt}
    (hc : s'.checklistResult = s.checklistResult)
    (hk : s'.criticResult = s.criticResult)
    (hh : ∃ l, s'.history = s.history ++ l) :
    escOk s → escOk s' := by
  refine escOk_mk (by rw [hc]; exact fun x => x) ?_ ?_
  · intro L hL hne
    exact ⟨L, by rw [hk]; exact hL, hne⟩
  · intro hm
    obtain ⟨l, hl⟩ := hh
    rw [hl]
    exact List.mem_append_left _ hm

lemma rendevousHITL_spec (s : StepSt) (input : List Char)
    (r : ValidationResult) (hck : s.checklistResult = some r) :
    rendevousHITL s input
      = some (
        if pyLower input = "ignore".data then (.saveVariables, s)
        else if pyLower input = "pass".data ∨ pyStrip input = [] then
          (if validationOk s then (.saveVariables, s) else (.agent, addFeedback s))
        else (.agent, { s with history := s.history ++ [.injected input] })) := by
  unfold rendevousHITL
  rw [hck]

lemma stageInv_step {mt : Nat} {c c' : Node × StepSt}
    (h : STrans mt c c') (hInv : StageInv c) : StageInv c' := by
  obtain ⟨h1, h2, h3, h4⟩ := hInv
  cases h with
  | initSandboxTr s =>
    exact stageInv_other (by simp) (by simp) (by simp) (by simp) (by simp) h1
  | initHistoryTr s =>
    refine stageInv_other (by simp) (by simp) (by simp) (by simp) (by simp) ?_
    intro hd
    exact @escOk_extendH s _ rfl rfl ⟨_, rfl⟩ (h1 hd)
  | agentTr s response vts =>
    unfold agentStep
    split_ifs with hlim hcb hdone
    · exact stageInv_tail (by simp) (by simp)
        (Or.inr (by simp))
    · refine stageInv_other (by simp) (by simp) (by simp) (by simp) (by simp) ?_
      intro hd
      exact @escOk_extendH s _ rfl rfl ⟨_, rfl⟩ (h1 hd)
    · refine stageInv_fanoutNode ?_ ?_ ?_
      · intro hd
        exact @escOk_extendH s _ rfl rfl ⟨_, rfl⟩ (h1 hd)
      · intro hx
        exact nomatch hx
      · intro hx
        exact nomatch hx
    · refine stageInv_other (by simp) (by simp) (by simp) (by simp) (by simp) ?_
      intro hd
      exact @escOk_extendH s _ rfl rfl ⟨_, rfl⟩ (h1 hd)
  | execTr s =>
    refine stageInv_other (by simp) (by simp) (by simp) (by simp) (by simp) ?_
    intro hd
    exact @escOk_extendH s _ rfl rfl ⟨_, rfl⟩ (h1 hd)
  | checklistTr s kd r =>
    refine stageInv_fanoutNode ?_ ?_ ?_
    · intro hd
      exact @escOk_mk s (applyChecklist s r) (fun _ => rfl)
        (fun L hL hne => ⟨L, hL, hne⟩)
        (fun hm => List.mem_append_left _ hm) (h1 hd)
    · intro _
      rfl
    · intro hkk
      obtain ⟨l, hl, hne⟩ := (h3 false kd rfl).2 hkk
      exact ⟨l, hl, hne⟩
  | criticTr s cd r1 r2 =>
    refine stageInv_fanoutNode ?_ ?_ ?_
    · intro hd
      exact @escOk_mk s (applyCritic s r1 r2) (fun x => x)
        (fun L hL hne => ⟨[r1, r2], rfl, by simp⟩)
        (fun hm => List.mem_append_left _ hm) (h1 hd)
    · intro hcc
      exact (h3 cd false rfl).1 hcc
    · intro _
      exact ⟨[r1, r2], rfl, by simp⟩
  | barrierTr s =>
    refine stageInv_rendezvousNode ?_
    obtain ⟨hc, hk⟩ := h3 true true rfl
    obtain ⟨l, hl, hne⟩ := hk rfl
    exact ⟨hc rfl, l, hl, hne⟩
  | rendevousAutoTr s hflag =>
    have hres := h2 rfl
    unfold rendevousAuto
    split_ifs with hok
    · exact stageInv_tail (by simp) (by simp) (Or.inl hres)
    · refine stageInv_other (by simp) (by simp) (by simp) (by simp) (by simp) ?_
      intro hd
      exact @escOk_extendH s _ rfl rfl ⟨_, rfl⟩ (Or.inl hres)
  | rendevousHITLTr s input out hflag hout =>
    have hres := h2 rfl
    obtain ⟨r, hck⟩ := Option.isSome_iff_exists.mp hres.1
    rw [rendevousHITL_spec s input r hck] at hout
    injection hout with hout
    subst hout
    split_ifs with hig hpass hok
    · exact stageInv_tail (by simp) (by simp) (Or.inl hres)
    · exact stageInv_tail (by simp) (by simp) (Or.inl hres)
    · refine stageInv_other (by simp) (by simp) (by simp) (by simp) (by simp) ?_
      intro hd
      exact @escOk_extendH s _ rfl rfl ⟨_, rfl⟩ (Or.inl hres)
    · refine stageInv_other (by simp) (by simp) (by simp) (by simp) (by simp) ?_
      intro hd
      exact @escOk_extendH s _ rfl rfl ⟨_, rfl⟩ (Or.inl hres)
  | saveVariablesTr s =>
    exact stageInv_tail (by simp) (by simp) (h4 (Or.inl rfl))
  | writeReportTr s report =>
    exact stageInv_tail (by simp) (by simp)
      (@escOk_extendH s _ rfl rfl ⟨[], by simp⟩ (h4 (Or.inr (Or.inl rfl))))

lemma stageInv_reach {mt : Nat} {c c' : Node × StepSt}
    (h : SReach mt c c') (hInv : StageInv c) : StageInv c' := by
  induction h with
  | refl => exact hInv
  | tail hsteps hstep ih => exact stageInv_step hstep ih

lemma stageInv_init {s0 : StepSt} (h : StageInit s0) :
    StageInv (Node.initSandbox, s0) := by
  obtain ⟨hh, hc, hk, hd⟩ := h
  refine stageInv_other (by simp) (by simp) (by simp) (by simp) (by simp) ?_
  intro hd2
  rw [hd] at hd2
  exact nomatch hd2

/-- The stage-2 entry steps of a run with the first stage skipped. -/
def stage2Steps : List Step := check_if_skip_any_step get_default_steps true

/-- A fresh stage-2 entry state (human-in-the-loop off). -/
def s0c : StepSt :=
  { useHITL := false
    steps := stage2Steps
    history := []
    code_block := []
    variablesToSave := []
    checklistResult := none
    criticResult := none }

/-- History after `k` clarify loops on an unparseable response. -/
def loopHist (k : Nat) : List Msg :=
  [Msg.system, Msg.seedHuman]
    ++ (List.replicate k [Msg.ai ['x'], Msg.corrective]).flatten

/-- The agent-loop state after `k` clarify rounds. -/
def loopState (k : Nat) : StepSt := { s0c with history := loopHist k }

/-- State right after the turn-limit escape fires. -/
def limitState : StepSt :=
  { s0c with history := loopHist 30 ++ [Msg.limitNotice] }

/-- State after `write_step_report` runs on the escape path: stage 2 is
completed though neither validator ever ran. -/
def finalState : StepSt :=
  { limitState with steps := markOrderReport stage2Steps 2 [] }

lemma loopHist_succ (k : Nat) :
    loopHist (k + 1) = loopHist k ++ [Msg.ai ['x'], Msg.corrective] := by
  unfold loopHist
  rw [List.replicate_succ', List.flatten_append]
  simp

lemma loopHist_length (k : Nat) : (loopHist k).length = 2 + 2 * k := by
  induction k with
  | zero => rfl
  | succ k ih =>
    rw [loopHist_succ, List.length_append, ih]
    simp
    omega

lemma agent_loop_step (k : Nat) (hk : k ≤ 29) :
    STrans 30 (.agent, loopState k) (.agent, loopState (k + 1)) := by
  have heq : agentStep 30 .saveVariables (loopState k) ['x'] []
      = (.agent, loopState (k + 1)) := by
    unfold agentStep
    rw [if_neg (by
      rw [show (loopState k).history = loopHist k from rfl, loopHist_length]
      omega)]
    rw [if_neg (by decide), if_neg (by decide)]
    rw [show (loopState k).history = loopHist k from rfl, ← loopHist_succ]
    rfl
  exact heq ▸ @STrans.agentTr 30 (loopState k) ['x'] []

lemma reach_loop (k : Nat) (hk : k ≤ 30) :
    SReach 30 (.agent, loopState 0) (.agent, loopState k) := by
  induction k with
  | zero => exact Relation.ReflTransGen.refl
  | succ k ih =>
    exact Relation.ReflTransGen.tail (ih (by omega)) (agent_loop_step k (by omega))

/-- The full escape trace of stage 2: thirty clarify loops fill the
history past `2 × 30`, then the turn-limit branch routes straight to
`save_variables` and `write_step_report` completes the stage with no
validation result in state. -/
lemma stage2_escape_trace :
    SReach 30 (.initSandbox, s0c) (.doneNode, finalState) := by
  have t1 : STrans 30 (.initSandbox, s0c) (.initHistory, s0c) :=
    @STrans.initSandboxTr 30 s0c
  have t2 : STrans 30 (.initHistory, s0c) (.agent, loopState 0) :=
    @STrans.initHistoryTr 30 s0c
  have t3 : STrans 30 (.agent, loopState 30) (.saveVariables, limitState) := by
    have heq : agentStep 30 .saveVariables (loopState 30) ['x'] []
        = (.saveVariables, limitState) := by
      unfold agentStep
      rw [if_pos (by
        rw [show (loopState 30).history = loopHist 30 from rfl, loopHist_length]
        omega)]
      rfl
    exact heq ▸ @STrans.agentTr 30 (loopState 30) ['x'] []
  have t4 : STrans 30 (.saveVariables, limitState) (.writeReport, limitState) :=
    @STrans.saveVariablesTr 30 limitState
  have t5 : STrans 30 (.writeReport, limitState) (.doneNode, finalState) :=
    @STrans.writeReportTr 30 limitState []
  have r1 : SReach 30 (.agent, loopState 0) (.saveVariables, limitState) :=
    Relation.ReflTransGen.tail (reach_loop 30 (by omega)) t3
  exact Relation.ReflTransGen.head t1 (Relation.ReflTransGen.head t2
    (Relation.ReflTransGen.tail (Relation.ReflTransGen.tail r1 t4) t5))

/-- Claim C1 counterexample: a reachable terminal state of the stage-2
sub-graph (turn-limit escape path) whose stage descriptor is completed
while the state holds NO checklist validation result and NO critic
validation results — the write-report node ran without either validator
having contributed. -/
theorem c1_counterexample :
    SReach 30 (.initSandbox, s0c) (.doneNode, finalState) ∧
      StageInit s0c ∧
      step2Done finalState.steps = true ∧
      finalState.checklistResult = none ∧
      finalState.criticResult = none := by
  exact ⟨stage2_escape_trace, ⟨rfl, rfl, rfl, by decide⟩, by decide, rfl, rfl⟩

/-- Claim C1 (amended): in every reachable state of a stage sub-graph run,
a completed stage descriptor implies that EITHER the state holds a
checklist validation result and a non-empty critic result list (the
rendezvous path), OR the turn-limit notice is in the stage history (the
escape path, which routes to `save_variables` and `write_step_report`
without running any validator). -/
theorem c1_amended (mt : Nat) (s0 : StepSt) (n : Node) (s : StepSt)
    (hinit : StageInit s0)
    (hreach : SReach mt (.initSandbox, s0) (n, s))
    (hdone : step2Done s.steps = true) :
    resultsPresent s ∨ Msg.limitNotice ∈ s.history :=
  (stageInv_reach hreach (stageInv_init hinit)).1 hdone

/-- Claim C1 witness: the amended invariant evaluated at the end of the
concrete escape trace. -/
theorem c1_amended_witness :
    StageInit s0c ∧ step2Done finalState.steps = true ∧
      (resultsPresent finalState ∨ Msg.limitNotice ∈ finalState.history) := by
  have hinit : StageInit s0c := ⟨rfl, rfl, rfl, by decide⟩
  refine ⟨hinit, by decide, ?_⟩
  exact c1_amended 30 s0c .doneNode finalState hinit stage2_escape_trace (by decide)

/-- Claim C2 counterexample: with the stage history over the limit
(62 > 2 × 30 messages), the code-agent node routes to `save_variables`
(artifact materialization), NOT to the validation fan-out, and not to any
terminal node — the validators are skipped entirely. -/
theorem c2_counterexample :
    (agentStep 30 .saveVariables (loopState 30) ['x'] []).1 = .saveVariables ∧
      (∀ cd kd, Node.saveVariables ≠ Node.fanout cd kd) ∧
      (agentStep 30 .saveVariables (loopState 30) ['x'] []).2.history
        = (loopState 30).history ++ [Msg.limitNotice] := by
  refine ⟨?_, by decide, ?_⟩
  · have heq : agentStep 30 .saveVariables (loopState 30) ['x'] []
        = (.saveVariables, limitState) := by
      unfold agentStep
      rw [if_pos (by
        rw [show (loopState 30).history = loopHist 30 from rfl, loopHist_length]
        omega)]
      rfl
    rw [heq]
  · have heq : agentStep 30 .saveVariables (loopState 30) ['x'] []
        = (.saveVariables, limitState) := by
      unfold agentStep
      rw [if_pos (by
        rw [show (loopState 30).history = loopHist 30 from rfl, loopHist_length]
        omega)]
      rfl
    rw [heq]
    rfl

/-- Claim C2 (amended): whenever the stage history holds more than
`2 × maxMessageTurn` messages, the code-agent node of
`get_code_agent_node` forces a transition to its configured
`next_node_name` — which stages 2-4 bind to the `save_variables`
(artifact materialization) node, bypassing both validators — regardless
of the response, appending the message noting the limit was hit.  (The
first stage's separate agent routes to the terminal node instead.) -/
theorem c2_amended (maxTurn : Nat) (nextNode : Node) (s : StepSt)
    (response : List Char) (vts : List (List Char × List Char))
    (h : s.history.length > 2 * maxTurn) :
    agentStep maxTurn nextNode s response vts
      = (nextNode, { s with history := s.history ++ [Msg.limitNotice] }) := by
  unfold agentStep
  rw [if_pos h]

/-- Claim C2 witness: the amended statement at the concrete over-limit
state of stage 2 (62 messages, limit 30). -/
theorem c2_amended_witness :
    (loopState 30).history.length > 2 * 30 ∧
      agentStep 30 .saveVariables (loopState 30) ['y'] []
        = (.saveVariables,
            { loopState 30 with
                history := (loopState 30).history ++ [Msg.limitNotice] }) := by
  have hlen : (loopState 30).history.length > 2 * 30 := by
    rw [show (loopState 30).history = loopHist 30 from rfl, loopHist_length]
    omega
  exact ⟨hlen, c2_amended 30 .saveVariables (loopState 30) ['y'] [] hlen⟩

/-- A response holding both a well-formed fenced python code block and the
DONE marker. -/
def bothResponse : List Char := "x\n```python\nx = 1\n```\nDONE".data

/-- Claim C3 counterexample: a response containing both a well-formed
fenced python code block and DONE does NOT route to the executor —
`extract_code_block` returns `None` whenever "DONE" is present, so the
DONE case wins and the agent routes to the validation fan-out. -/
theorem c3_counterexample :
    extract_code_block bothResponse = none ∧
      (agentStep 30 .saveVariables (loopState 0) bothResponse []).1
        = .fanout false false ∧
      Node.fanout false false ≠ .pythonExecutor := by
  refine ⟨by decide, by decide, by decide⟩

/-- Claim C3 (amended): below the turn limit the code-agent node
classifies every response into exactly one of three cases, with the DONE
check taking priority inside `extract_code_block`: (1) a response
containing "DONE" — with or without a code block — routes to the
validation fan-out; (2) a response without "DONE" whose extracted code
block is truthy (present and non-empty) routes to the executor; (3) any
other response gets the corrective instruction appended and loops back to
the agent. -/
theorem c3_amended (maxTurn : Nat) (nextNode : Node) (s : StepSt)
    (response : List Char) (vts : List (List Char × List Char))
    (hlen : ¬ s.history.length > 2 * maxTurn) :
    (containsDone response = true →
      agentStep maxTurn nextNode s response vts
        = (.fanout false false, { s with
            history := s.history ++ [Msg.ai response]
            variablesToSave := vts })) ∧
    (containsDone response = false →
      cbTruthy (extract_code_block response) = true →
      agentStep maxTurn nextNode s response vts
        = (.pythonExecutor, { s with
            history := s.history ++ [Msg.ai response]
            code_block := (extract_code_block response).getD [] })) ∧
    (containsDone response = false →
      cbTruthy (extract_code_block response) = false →
      agentStep maxTurn nextNode s response vts
        = (.agent, { s with
            history := s.history ++ [Msg.ai response, Msg.corrective] })) := by
  refine ⟨?_, ?_, ?_⟩
  · intro hdone
    have hnone : extract_code_block response = none := by
      unfold extract_code_block
      rw [if_pos hdone]
    unfold agentStep
    rw [if_neg hlen, hnone]
    rw [if_neg (by simp [cbTruthy]), if_pos hdone]
  · intro hdone hcb
    unfold agentStep
    rw [if_neg hlen, if_pos hcb]
  · intro hdone hcb
    unfold agentStep
    rw [if_neg hlen, if_neg (by rw [hcb]; exact Bool.false_ne_true),
      if_neg (by rw [hdone]; exact Bool.false_ne_true)]

/-- Claim C3 witness: the amended classification at the concrete
both-code-and-DONE response (case 1) in the fresh stage-2 state. -/
theorem c3_amended_witness :
    ¬ (loopState 0).history.length > 2 * 30 ∧
      containsDone bothResponse = true ∧
      agentStep 30 .saveVariables (loopState 0) bothResponse []
        = (.fanout false false, { loopState 0 with
            history := (loopState 0).history ++ [Msg.ai bothResponse]
            variablesToSave := [] }) := by
  have hlen : ¬ (loopState 0).history.length > 2 * 30 := by decide
  have hdone : containsDone bothResponse = true := by decide
  exact ⟨hlen, hdone,
    (c3_amended 30 .saveVariables (loopState 0) bothResponse [] hlen).1 hdone⟩

/-- Claim C4: with human-in-the-loop on (and the checklist result present,
which the barrier guarantees — its absence crashes the summary formatting
before the interrupt), the rendezvous node handles EVERY resume string by
exactly three shapes and never rejects one: "ignore" (case-insensitive)
advances to the next node regardless of validation state; "pass"
(case-insensitive) or a whitespace-only string resumes the automatic
decision (advance iff checklist and all critics passed, else loop back
with the feedback instruction); every other string is injected into the
history as a new human message and routed back to the agent. -/
theorem c4_rendezvous_resume (s : StepSt) (input : List Char)
    (hck : s.checklistResult.isSome = true) :
    (rendevousHITL s input).isSome = true ∧
    (pyLower input = "ignore".data →
      rendevousHITL s input = some (.saveVariables, s)) ∧
    (pyLower input ≠ "ignore".data →
      (pyLower input = "pass".data ∨ pyStrip input = []) →
      rendevousHITL s input
        = some (if validationOk s then (.saveVariables, s)
            else (.agent, addFeedback s))) ∧
    (pyLower input ≠ "ignore".data → pyLower input ≠ "pass".data →
      pyStrip input ≠ [] →
      rendevousHITL s input
        = some (.agent,
            { s with history := s.history ++ [Msg.injected input] })) := by
  obtain ⟨r, hr⟩ := Option.isSome_iff_exists.mp hck
  refine ⟨?_, ?_, ?_, ?_⟩
  · rw [rendevousHITL_spec s input r hr]
    rfl
  · intro hig
    rw [rendevousHITL_spec s input r hr, if_pos hig]
  · intro hig hpass
    rw [rendevousHITL_spec s input r hr, if_neg hig, if_pos hpass]
  · intro hig hpass hstrip
    rw [rendevousHITL_spec s input r hr, if_neg hig,
      if_neg (fun h => h.elim hpass hstrip)]

/-- A passing validation result. -/
def vrPass : ValidationResult := ⟨[], true, none⟩

/-- A failing validation result with a message to the user. -/
def vrFail : ValidationResult := ⟨[], false, some ['m']⟩

/-- A joined human-in-the-loop state with all validations passed. -/
def hitlState : StepSt :=
  { s0c with
      useHITL := true
      checklistResult := some vrPass
      criticResult := some [vrPass, vrPass] }

/-- Claim C4 witness: "IGNORE" advances, and an arbitrary free-text
resume value is injected and looped back, at a concrete joined state. -/
theorem c4_rendezvous_resume_witness :
    hitlState.checklistResult.isSome = true ∧
      rendevousHITL hitlState "IGNORE".data = some (.saveVariables, hitlState) ∧
      rendevousHITL hitlState "hello".data
        = some (.agent, { hitlState with
            history := hitlState.history ++ [Msg.injected "hello".data] }) := by
  have hck : hitlState.checklistResult.isSome = true := rfl
  have h1 := c4_rendezvous_resume hitlState "IGNORE".data hck
  have h2 := c4_rendezvous_resume hitlState "hello".data hck
  exact ⟨hck, h1.2.1 (by decide), h2.2.2.2 (by decide) (by decide) (by decide)⟩

lemma validationOk_iff (s : StepSt) :
    validationOk s = true ↔
      (∃ r, s.checklistResult = some r ∧ r.pass_the_validation = true) ∧
      (∃ l, s.criticResult = some l ∧ l ≠ [] ∧
        ∀ v ∈ l, v.pass_the_validation = true) := by
  unfold validationOk checklistPassed allCriticsPassed
  cases hc : s.checklistResult with
  | none => simp
  | some r =>
    cases hk : s.criticResult with
    | none => simp
    | some l =>
      simp only [Bool.and_eq_true, List.all_eq_true, Option.some.injEq]
      constructor
      · rintro ⟨h1, h2, h3⟩
        refine ⟨⟨r, rfl, h1⟩, ⟨l, rfl, ?_, h3⟩⟩
        intro he
        rw [he] at h2
        exact absurd h2 (by simp)
      · rintro ⟨⟨r2, hr2, hp⟩, ⟨l2, hl2, hne, hall⟩⟩
        cases hr2
        cases hl2
        refine ⟨hp, ?_, hall⟩
        simpa using hne

/-- Claim C5: with human-in-the-loop off, the rendezvous node advances to
the next node if and only if the checklist result exists and passed and
the critic result list exists, is non-empty, and every entry passed; in
every other case it loops back to the agent node with the standard
"address both feedbacks" instruction appended to history. -/
theorem c5_rendezvous_auto (s : StepSt) :
    ((rendevousAuto s).1 = .saveVariables ↔
      (∃ r, s.checklistResult = some r ∧ r.pass_the_validation = true) ∧
      (∃ l, s.criticResult = some l ∧ l ≠ [] ∧
        ∀ v ∈ l, v.pass_the_validation = true)) ∧
    (validationOk s = true → rendevousAuto s = (.saveVariables, s)) ∧
    (validationOk s = false →
      rendevousAuto s
        = (.agent,
            { s with history := s.history ++ [Msg.feedbackInstruction] })) := by
  refine ⟨?_, ?_, ?_⟩
  · rw [← validationOk_iff]
    unfold rendevousAuto
    by_cases h : validationOk s = true
    · rw [if_pos h]
      simp [h]
    · rw [if_neg h]
      simp [h]
  · intro h
    unfold rendevousAuto
    rw [if_pos h]
  · intro h
    unfold rendevousAuto
    rw [if_neg (by rw [h]; exact Bool.false_ne_true)]
    rfl

/-- A joined non-HITL state with a failed checklist result. -/
def autoFailState : StepSt :=
  { s0c with
      checklistResult := some vrFail
      criticResult := some [vrPass, vrPass] }

/-- A joined non-HITL state with everything passed. -/
def autoPassState : StepSt :=
  { s0c with
      checklistResult := some vrPass
      criticResult := some [vrPass, vrPass] }

/-- Claim C5 witness: the automatic decision at two concrete joined
states — a failed checklist loops back with the feedback instruction, an
all-passed state advances. -/
theorem c5_rendezvous_auto_witness :
    validationOk autoFailState = false ∧
      rendevousAuto autoFailState
        = (.agent, { autoFailState with
            history := autoFailState.history ++ [Msg.feedbackInstruction] }) ∧
      validationOk autoPassState = true ∧
      rendevousAuto autoPassState = (.saveVariables, autoPassState) := by
  refine ⟨by decide, ?_, by decide, ?_⟩
  · exact (c5_rendezvous_auto autoFailState).2.2 (by decide)
  · exact (c5_rendezvous_auto autoPassState).2.1 (by decide)
